import Mathlib

/-!
Verification of the DevOpsTest Flask backend: a shallow embedding of the
todo REST resource (src/app/init file, ToDo and All_Todo resources) and
of the workout routes (src/app/main.py), with the data model from
src/app/models.py. Stores are modelled as lists of rows; the SQLAlchemy
primary-key lookup Model.query.get becomes a first-match search on the
id column, and db.session.delete removes that first matching row.
-/

namespace DevOpsTest

/-- Row of the ToDoModel table (src/app/init, class ToDoModel):
integer primary key supplied by the caller, task and summary strings. -/
structure ToDoRecord where
  id : Int
  task : String
  summary : String
deriving DecidableEq, Repr

/-- The ToDoModel table contents, in insertion order. -/
abbrev ToDoStore := List ToDoRecord

/-- Row of the User table (src/app/models.py, class User). -/
structure User where
  id : Int
  email : String
  password : String
  name : String
deriving DecidableEq, Repr

/-- Row of the Workout table (src/app/models.py, class Workout):
pushups, a posting timestamp, an optional comment and the owning
user's id (foreign key). -/
structure Workout where
  id : Int
  pushups : Int
  date_posted : Nat
  comment : Option String
  user_id : Int
deriving DecidableEq, Repr

/-- ToDoModel.query.get(todo_id): primary-key lookup, i.e. the first row
whose id column equals the key. -/
def queryGet (store : ToDoStore) (i : Int) : Option ToDoRecord :=
  store.find? (fun r => r.id == i)

/-- Replace the first element satisfying p by its image under f, leaving
everything else in place.  This is how an ORM in-place mutation of the row
returned by a primary-key lookup acts on the table. -/
def updateFirst {α : Type} (p : α → Bool) (f : α → α) : List α → List α
  | [] => []
  | a :: as => if p a then f a :: as else a :: updateFirst p f as

/-- Outcomes of the todo resource methods, tagged with the HTTP status the
code produces: 200 ok, 201 created, 204 no content, 404 "Task not found",
409 "Task already exists", 400 from the reqparse required-field check. -/
inductive TodoResponse where
  | ok (r : ToDoRecord)
  | created (r : ToDoRecord)
  | noContent
  | notFound
  | conflict
  | validationError
deriving DecidableEq, Repr

/-- ToDo.get (src/app/init lines 44-49): fetch by id, 404 if absent. -/
def todo_get (store : ToDoStore) (i : Int) : TodoResponse :=
  match queryGet store i with
  | none => .notFound
  | some todo => .ok todo

/-- ToDo.post (src/app/init lines 51-61).  task_post_args.parse_args()
runs first and aborts with a client error when task or summary is missing
(required=True); only then is the duplicate-id check made, and on success
the new row is appended and committed. -/
def todo_post (store : ToDoStore) (i : Int) (task summary : Option String) :
    TodoResponse × ToDoStore :=
  match task, summary with
  | some t, some s =>
    match queryGet store i with
    | some _ => (.conflict, store)
    | none => (.created ⟨i, t, s⟩, store ++ [⟨i, t, s⟩])
  | _, _ => (.validationError, store)

/-- The conditional assignment in ToDo.put: a field is overwritten only
when the parsed argument is truthy, so both an absent field (None) and an
empty string leave the current value in place. -/
def applyField (cur : String) (arg : Option String) : String :=
  match arg with
  | none => cur
  | some v => if v = "" then cur else v

/-- ToDo.put (src/app/init lines 63-76): 404 if the id is absent;
otherwise the found row is mutated field by field under a truthiness
test and the result returned. -/
def todo_put (store : ToDoStore) (i : Int) (task summary : Option String) :
    TodoResponse × ToDoStore :=
  match queryGet store i with
  | none => (.notFound, store)
  | some todo =>
    (.ok ⟨todo.id, applyField todo.task task, applyField todo.summary summary⟩,
      updateFirst (fun r => r.id == i)
        (fun r => ⟨r.id, applyField r.task task, applyField r.summary summary⟩) store)

/-- ToDo.delete (src/app/init lines 78-85): 404 if the id is absent;
otherwise the found row is deleted and an empty 204 response returned. -/
def todo_delete (store : ToDoStore) (i : Int) : TodoResponse × ToDoStore :=
  match queryGet store i with
  | none => (.notFound, store)
  | some _ => (.noContent, store.eraseP (fun r => r.id == i))

/-- Key of a python dictionary entry.  The comprehension in All_Todo.get
keys its dict by the integer record ids, while the marshalling of the
decorator looks fields up by their string names; both kinds of key live
in the same dynamically typed dict, and an integer key never equals a
string key. -/
inductive PyKey where
  | int (n : Int)
  | str (s : String)
deriving DecidableEq, Repr

/-- One step of the dictionary comprehension in All_Todo.get: python dict
assignment overwrites in place when the key is present and appends the
pair otherwise. -/
def dictInsert (m : List (PyKey × String × String)) (k : PyKey) (t s : String) :
    List (PyKey × String × String) :=
  if m.any (fun e => e.1 == k) then
    m.map (fun e => if e.1 == k then (k, t, s) else e)
  else m ++ [(k, t, s)]

/-- The body of All_Todo.get (src/app/init lines 92-96): iterate over
every stored row and build the id to (task, summary) dictionary, keyed by
the integer record ids. -/
def all_todos_get (store : ToDoStore) : List (PyKey × String × String) :=
  store.foldl (fun m r => dictInsert m (PyKey.int r.id) r.task r.summary) []

/-- What the /all-todos route answers after serialization: a single
marshalled object with an integer id and two nullable strings, or a
marshalling type error. -/
inductive MarshalledAllTodos where
  | ok (id : Int) (task summary : Option String)
  | typeError
deriving DecidableEq, Repr

/-- The serialization applied by the marshal_with(resource_fields)
decorator on All_Todo.get (src/app/init lines 90-91): flask-restful
marshal treats the returned dict as one object and looks each declared
field name (the strings id, task and summary) up as a dictionary key.
An absent key yields the declared field default, 0 for fields.Integer
and null for fields.String; a present key would hand one of the inner
sub-dictionaries to the Integer and String formatters, a type error. -/
def marshal_all_todos (m : List (PyKey × String × String)) : MarshalledAllTodos :=
  if ((m.find? (fun e => e.1 == PyKey.str "id")).isSome
      || (m.find? (fun e => e.1 == PyKey.str "task")).isSome)
      || (m.find? (fun e => e.1 == PyKey.str "summary")).isSome then
    .typeError
  else .ok 0 none none

/-- All_Todo.get as served over HTTP (src/app/init lines 88-96): the
dictionary comprehension followed by the decorator's marshalling. -/
def all_todos_endpoint (store : ToDoStore) : MarshalledAllTodos :=
  marshal_all_todos (all_todos_get store)

/-- Outcome of a workout route: 404 from get_or_404 / first_or_404, or a
redirect back to the list view after a successful mutation. -/
inductive MainResponse where
  | notFound
  | redirect
deriving DecidableEq, Repr

/-- Rendered result of the /all listing: 404, or a page of workouts
together with the total page count of the pagination object. -/
inductive WorkoutsPage where
  | notFound
  | page (items : List Workout) (pages : Nat)
deriving DecidableEq, Repr

/-- Flask-SQLAlchemy paginate(page=page, per_page=per_page) with its
default error_out behaviour: pages below 1 abort with 404, as does an
empty page other than page 1; otherwise the slice of per_page items
starting at offset (page - 1) * per_page is returned along with the
total page count, the ceiling of length / per_page. -/
def paginate {α : Type} [DecidableEq α] (items : List α) (page per_page : Nat) :
    Option (List α × Nat) :=
  if page = 0 then none
  else if (items.drop ((page - 1) * per_page)).take per_page = [] ∧ page ≠ 1 then none
  else some ((items.drop ((page - 1) * per_page)).take per_page,
    (items.length + per_page - 1) / per_page)

/-- user_workouts (src/app/main.py lines 43-49, route /all): re-resolve
the User row whose email matches the session user's email (first_or_404),
filter the Workout table to rows owned by that user, and paginate with a
fixed per_page of 3. -/
def user_workouts (currentUser : User) (users : List User)
    (workouts : List Workout) (page : Nat) : WorkoutsPage :=
  match users.find? (fun u => u.email == currentUser.email) with
  | none => .notFound
  | some user =>
    match paginate (workouts.filter (fun w => w.user_id == user.id)) page 3 with
    | none => .notFound
    | some (items, pages) => .page items pages

/-- update_workout (src/app/main.py lines 52-64): get_or_404 on the
workout id, then overwrite pushups and comment from the form and commit.
The session user is available (login_required) but never consulted. -/
def update_workout (currentUser : User) (workouts : List Workout) (wid : Int)
    (pushups : Int) (comment : Option String) : MainResponse × List Workout :=
  match workouts.find? (fun w => w.id == wid) with
  | none => (.notFound, workouts)
  | some _ =>
    (.redirect, updateFirst (fun w => w.id == wid)
      (fun w => { w with pushups := pushups, comment := comment }) workouts)

/-- delete_workout (src/app/main.py lines 66-73): get_or_404 on the
workout id, then delete the row and commit.  The session user is
available (login_required) but never consulted. -/
def delete_workout (currentUser : User) (workouts : List Workout) (wid : Int) :
    MainResponse × List Workout :=
  match workouts.find? (fun w => w.id == wid) with
  | none => (.notFound, workouts)
  | some _ => (.redirect, workouts.eraseP (fun w => w.id == wid))

/-- A concrete two-row todo table used to instantiate the theorems. -/
def sampleStore : ToDoStore := [⟨1, "a", "b"⟩, ⟨2, "c", "d"⟩]

/-- A concrete user, owner of the sample workouts. -/
def uA : User := ⟨1, "a@x.com", "pw", "A"⟩

/-- A second authenticated user, not the owner of the sample workout. -/
def uB : User := ⟨2, "b@x.com", "pw", "B"⟩

/-- A workout owned by uA. -/
def w0 : Workout := ⟨1, 10, 0, some "day1", 1⟩

/-- Four workouts owned by uA, for the pagination scenario. -/
def ws4 : List Workout :=
  [⟨1, 10, 0, none, 1⟩, ⟨2, 20, 1, none, 1⟩, ⟨3, 30, 2, none, 1⟩, ⟨4, 40, 3, none, 1⟩]

/-- Lookups by a predicate that rejects both the replaced element and its
image are unchanged by updateFirst. -/
theorem find?_updateFirst {α : Type} (p q : α → Bool) (f : α → α) (l : List α)
    (h : ∀ a, p a = true → q (f a) = false ∧ q a = false) :
    (updateFirst p f l).find? q = l.find? q := by
  induction l with
  | nil => rfl
  | cons a as ih =>
    by_cases hp : p a = true
    · obtain ⟨h1, h2⟩ := h a hp
      rw [updateFirst, if_pos hp, List.find?_cons_of_neg _ (by simp [h1]),
        List.find?_cons_of_neg _ (by simp [h2])]
    · rw [updateFirst, if_neg hp]
      by_cases hq : q a = true
      · rw [List.find?_cons_of_pos _ hq, List.find?_cons_of_pos _ hq]
      · rw [List.find?_cons_of_neg _ hq, List.find?_cons_of_neg _ hq, ih]

/-- After updateFirst, a lookup by the same predicate returns the image of
the row the lookup found before, provided f preserves the predicate. -/
theorem find?_updateFirst_found {α : Type} (p : α → Bool) (f : α → α) (l : List α)
    (a : α) (hfind : l.find? p = some a) (hpf : ∀ b, p b = true → p (f b) = true) :
    (updateFirst p f l).find? p = some (f a) := by
  induction l with
  | nil => simp at hfind
  | cons b bs ih =>
    by_cases hp : p b = true
    · rw [List.find?_cons_of_pos _ hp] at hfind
      injection hfind with hba
      subst hba
      rw [updateFirst, if_pos hp, List.find?_cons_of_pos _ (hpf b hp)]
    · rw [List.find?_cons_of_neg _ hp] at hfind
      rw [updateFirst, if_neg hp, List.find?_cons_of_neg _ hp, ih hfind]

/-- When the key column is duplicate-free, erasing the first row with a
given key leaves no row with that key. -/
theorem find?_eraseP_of_nodup_keys {α β : Type} [DecidableEq β] (key : α → β)
    (l : List α) (k : β) (hnd : (l.map key).Nodup) :
    (l.eraseP (fun a => key a == k)).find? (fun a => key a == k) = none := by
  induction l with
  | nil => rfl
  | cons a as ih =>
    rw [List.map_cons, List.nodup_cons] at hnd
    by_cases hp : (key a == k) = true
    · rw [@List.eraseP_cons_of_pos _ a as (fun x => key x == k) hp]
      rw [List.find?_eq_none]
      intro b hb hkb
      have hba : key b = k := by simpa using hkb
      have hka : key a = k := by simpa using hp
      apply hnd.1
      have hab : key a = key b := by rw [hka, hba]
      rw [hab]
      exact List.mem_map_of_mem key hb
    · rw [@List.eraseP_cons_of_neg _ a as (fun x => key x == k) hp,
        @List.find?_cons_of_neg _ (fun x => key x == k) a _ hp]
      exact ih hnd.2

/-- Every key of the dictionary built by the comprehension is one of the
integer record ids, as is every key of any integer-keyed accumulator it
is grown from. -/
theorem all_todos_foldl_keys (store : ToDoStore)
    (acc : List (PyKey × String × String))
    (hacc : ∀ e ∈ acc, ∃ n, e.1 = PyKey.int n) :
    ∀ e ∈ store.foldl (fun m r => dictInsert m (PyKey.int r.id) r.task r.summary) acc,
      ∃ n, e.1 = PyKey.int n := by
  induction store generalizing acc with
  | nil => simpa using hacc
  | cons a as ih =>
    rw [List.foldl_cons]
    apply ih
    intro e he
    rw [dictInsert] at he
    split at he
    · obtain ⟨x, hx, hxe⟩ := List.mem_map.mp he
      by_cases hk : (x.1 == PyKey.int a.id) = true
      · rw [if_pos hk] at hxe
        exact ⟨a.id, by rw [← hxe]⟩
      · rw [if_neg hk] at hxe
        exact hxe ▸ hacc x hx
    · rcases List.mem_append.mp he with h1 | h2
      · exact hacc e h1
      · have he2 : e = (PyKey.int a.id, a.task, a.summary) := by simpa using h2
        exact ⟨a.id, by rw [he2]⟩

/-- The id column of the todo table stays duplicate-free under Create: a
row is appended only when no row with that id exists. -/
theorem todo_post_preserves_nodup (store : ToDoStore) (i : Int)
    (task summary : Option String) (hnd : (store.map (fun r => r.id)).Nodup) :
    (((todo_post store i task summary).2).map (fun r => r.id)).Nodup := by
  cases task with
  | none => simpa [todo_post] using hnd
  | some t =>
    cases summary with
    | none => simpa [todo_post] using hnd
    | some s =>
      cases hq : queryGet store i with
      | some r => simpa [todo_post, hq] using hnd
      | none =>
        have habs : ∀ r ∈ store, ¬(r.id == i) = true := by
          rw [queryGet, List.find?_eq_none] at hq
          exact hq
        simp only [todo_post, hq, List.map_append, List.map_cons, List.map_nil]
        rw [List.nodup_append]
        refine ⟨hnd, by simp, ?_⟩
        intro x hx hx2
        have hxi : x = i := by simpa using hx2
        obtain ⟨r, hr, hrx⟩ := List.mem_map.mp hx
        exact habs r hr (by simp [hrx, hxi])

/-- The id column of the todo table stays duplicate-free under Delete. -/
theorem todo_delete_preserves_nodup (store : ToDoStore) (i : Int)
    (hnd : (store.map (fun r => r.id)).Nodup) :
    (((todo_delete store i).2).map (fun r => r.id)).Nodup := by
  cases hq : queryGet store i with
  | none => simpa [todo_delete, hq] using hnd
  | some r =>
    have hsub := (List.eraseP_sublist (p := fun x => x.id == i) store).map
      (fun r => r.id)
    simpa [todo_delete, hq] using List.Nodup.sublist hsub hnd

/-- Pagination with per_page 3 over a non-empty list of length N: every
page number up to the ceiling of N over 3 succeeds, delivers the slice at
offset (page - 1) * 3, reports ceiling of N over 3 total pages, and the
slice has 3 items except on the last page, which has N mod 3 (or 3 when
N mod 3 is zero). -/
theorem paginate_spec {α : Type} [DecidableEq α] (items : List α) (page N : Nat)
    (hN : items.length = N) (h0 : 0 < N) (hp1 : 1 ≤ page)
    (hp2 : page ≤ (N + 2) / 3) :
    paginate items page 3
      = some ((items.drop ((page - 1) * 3)).take 3, (N + 2) / 3) ∧
    ((items.drop ((page - 1) * 3)).take 3).length
      = if page < (N + 2) / 3 then 3 else if N % 3 = 0 then 3 else N % 3 := by
  have hlen : ((items.drop ((page - 1) * 3)).take 3).length
      = min 3 (N - (page - 1) * 3) := by
    rw [List.length_take, List.length_drop, hN]
  have harith : 0 < min 3 (N - (page - 1) * 3) := by omega
  constructor
  · rw [paginate, if_neg (by omega : ¬ page = 0), if_neg ?_]
    · rw [hN]
      norm_num
    · intro hcon
      rw [hcon.1] at hlen
      simp at hlen
      omega
  · rw [hlen]
    by_cases hlt : page < (N + 2) / 3
    · rw [if_pos hlt]; omega
    · rw [if_neg hlt]
      by_cases hm : N % 3 = 0
      · rw [if_pos hm]; omega
      · rw [if_neg hm]; omega

/-- Any successful page is the corresponding slice of the input list. -/
theorem paginate_items {α : Type} [DecidableEq α] (items : List α)
    (page per_page : Nat) (res : List α × Nat)
    (h : paginate items page per_page = some res) :
    res.1 = (items.drop ((page - 1) * per_page)).take per_page := by
  rw [paginate] at h
  split at h
  · exact absurd h (by simp)
  · split at h
    · exact absurd h (by simp)
    · injection h with h2
      rw [← h2]

/-- C1: the claim says update and delete mutate a workout only when the
acting session user owns it.  The routes never consult the session user:
here uB (id 2) is not the owner of w0 (owned by user 1), yet the update
overwrites the record and the delete removes it.  This theorem evaluates
the code at that failing input. -/
theorem C1_no_ownership_check :
    uB.id ≠ w0.user_id ∧
    (update_workout uB [w0] 1 99 (some "hacked")).2
      = [⟨1, 99, 0, some "hacked", 1⟩] ∧
    (update_workout uB [w0] 1 99 (some "hacked")).2 ≠ [w0] ∧
    (delete_workout uB [w0] 1).2 = [] := by decide

/-- C2: the claim says ListAll returns a mapping from id to (task,
summary) with one entry per stored record.  The comprehension inside
All_Todo.get does build that mapping, but the marshal_with decorator then
marshals the dict as a single object: its string field names are absent
from the integer-keyed dict, so the endpoint answers the constant default
object (id 0 and null strings) for every store.  This theorem evaluates
the code: the collapse holds for all stores, and at the concrete two-row
table the internally built mapping carries both records while the
endpoint output carries none of them. -/
theorem C2_marshal_collapses :
    (∀ store : ToDoStore, all_todos_endpoint store = .ok 0 none none) ∧
    all_todos_get sampleStore
      = [(PyKey.int 1, "a", "b"), (PyKey.int 2, "c", "d")] ∧
    all_todos_endpoint sampleStore = .ok 0 none none := by
  refine ⟨?_, by decide, by decide⟩
  intro store
  have hkeys : ∀ e ∈ all_todos_get store, ∃ n, e.1 = PyKey.int n :=
    all_todos_foldl_keys store [] (by intro e he; simp at he)
  have hnone : ∀ s : String,
      (all_todos_get store).find? (fun e => e.1 == PyKey.str s) = none := by
    intro s
    rw [List.find?_eq_none]
    intro e he
    obtain ⟨n, hn⟩ := hkeys e he
    simp [hn]
  rw [all_todos_endpoint, marshal_all_todos, if_neg (by simp [hnone])]

/-- C3 counterexample: the claim says an update supplying exactly one
field changes that field to the supplied value.  Supplying task as the
empty string on the stored record (1, "a", "b") leaves the record exactly
as it was: the task is still "a", not the supplied empty string. -/
theorem C3_counterexample :
    (todo_put [(⟨1, "a", "b"⟩ : ToDoRecord)] 1 (some "") none).1
      = .ok ⟨1, "a", "b"⟩ ∧
    (todo_put [(⟨1, "a", "b"⟩ : ToDoRecord)] 1 (some "") none).2
      = [⟨1, "a", "b"⟩] ∧
    (⟨1, "a", "b"⟩ : ToDoRecord) ≠ ⟨1, "", "b"⟩ := by decide

/-- C3 as amended: an Update supplying exactly one field with a non-empty
value changes exactly that field, leaves the other field and every other
row unchanged, and returns the updated record; on a missing id it fails
with NotFound and changes nothing. -/
theorem C3_put_single_field (store : ToDoStore) (i j : Int) (r : ToDoRecord)
    (v : String) :
    (queryGet store i = none →
      ∀ task summary, todo_put store i task summary = (.notFound, store)) ∧
    (queryGet store i = some r → v ≠ "" → j ≠ i →
      (todo_put store i (some v) none).1 = .ok ⟨r.id, v, r.summary⟩ ∧
      queryGet (todo_put store i (some v) none).2 i = some ⟨r.id, v, r.summary⟩ ∧
      queryGet (todo_put store i (some v) none).2 j = queryGet store j) ∧
    (queryGet store i = some r → v ≠ "" → j ≠ i →
      (todo_put store i none (some v)).1 = .ok ⟨r.id, r.task, v⟩ ∧
      queryGet (todo_put store i none (some v)).2 i = some ⟨r.id, r.task, v⟩ ∧
      queryGet (todo_put store i none (some v)).2 j = queryGet store j) := by
  refine ⟨?_, ?_, ?_⟩
  · intro h task summary
    simp [todo_put, h]
  · intro hfind hv hj
    have hupd : (todo_put store i (some v) none).2
        = updateFirst (fun x => x.id == i)
          (fun x => ⟨x.id, applyField x.task (some v), applyField x.summary none⟩)
          store := by
      simp [todo_put, hfind]
    refine ⟨by simp [todo_put, hfind, applyField, hv], ?_, ?_⟩
    · rw [hupd, queryGet]
      rw [find?_updateFirst_found _ _ _ r hfind (by intro b hb; simpa using hb)]
      simp [applyField, hv]
    · rw [hupd]
      simp only [queryGet]
      rw [find?_updateFirst _ _ _ _ ?_]
      intro a ha
      have hai : a.id = i := by simpa using ha
      constructor
      · simp only [beq_eq_false_iff_ne]
        simpa [hai] using fun hc => hj hc.symm
      · simp only [beq_eq_false_iff_ne]
        simpa [hai] using fun hc => hj hc.symm
  · intro hfind hv hj
    have hupd : (todo_put store i none (some v)).2
        = updateFirst (fun x => x.id == i)
          (fun x => ⟨x.id, applyField x.task none, applyField x.summary (some v)⟩)
          store := by
      simp [todo_put, hfind]
    refine ⟨by simp [todo_put, hfind, applyField, hv], ?_, ?_⟩
    · rw [hupd, queryGet]
      rw [find?_updateFirst_found _ _ _ r hfind (by intro b hb; simpa using hb)]
      simp [applyField, hv]
    · rw [hupd]
      simp only [queryGet]
      rw [find?_updateFirst _ _ _ _ ?_]
      intro a ha
      have hai : a.id = i := by simpa using ha
      constructor
      · simp only [beq_eq_false_iff_ne]
        simpa [hai] using fun hc => hj hc.symm
      · simp only [beq_eq_false_iff_ne]
        simpa [hai] using fun hc => hj hc.symm

/-- Witness for C3: updating only the task of row 1 in the sample table
changes the task, keeps the summary, and leaves row 2 untouched. -/
theorem C3_witness :
    (todo_put sampleStore 1 (some "x") none).1 = .ok ⟨1, "x", "b"⟩ ∧
    queryGet (todo_put sampleStore 1 (some "x") none).2 1 = some ⟨1, "x", "b"⟩ ∧
    queryGet (todo_put sampleStore 1 (some "x") none).2 2 = queryGet sampleStore 2 :=
  (C3_put_single_field sampleStore 1 2 ⟨1, "a", "b"⟩ "x").2.1
    (by decide) (by decide) (by decide)

/-- C4: Create on an id that is already stored fails with Conflict and
leaves the table (hence the existing record) unaltered; on a fresh id it
appends the new record and returns it with status 201. -/
theorem C4_post_conflict (store : ToDoStore) (i : Int) (t s : String) :
    ((queryGet store i).isSome = true →
      todo_post store i (some t) (some s) = (.conflict, store)) ∧
    (queryGet store i = none →
      todo_post store i (some t) (some s)
        = (.created ⟨i, t, s⟩, store ++ [⟨i, t, s⟩])) := by
  constructor
  · intro h
    cases hq : queryGet store i with
    | none => rw [hq] at h; simp at h
    | some r => simp [todo_post, hq]
  · intro h
    simp [todo_post, h]

/-- Witness for C4: re-posting id 1 of the sample table is a conflict and
the table is unchanged. -/
theorem C4_witness :
    (queryGet sampleStore 1).isSome = true ∧
    todo_post sampleStore 1 (some "x") (some "y") = (.conflict, sampleStore) :=
  ⟨by decide, (C4_post_conflict sampleStore 1 "x" "y").1 (by decide)⟩

/-- C5: for a user owning N workouts (N positive), the /all listing with
its fixed page size of 3 accepts exactly the pages 1 up to the ceiling of
N over 3, reports that many total pages, and yields 3 workouts on every
page before the last and N mod 3 (or 3 when N mod 3 is zero) on the
last. -/
theorem C5_pagination (cu : User) (users : List User) (ws : List Workout)
    (u : User) (N p : Nat)
    (hu : users.find? (fun x => x.email == cu.email) = some u)
    (hN : (ws.filter (fun w => w.user_id == u.id)).length = N)
    (h0 : 0 < N) (hp1 : 1 ≤ p) (hp2 : p ≤ (N + 2) / 3) :
    ∃ items, user_workouts cu users ws p = .page items ((N + 2) / 3) ∧
      items.length
        = if p < (N + 2) / 3 then 3 else if N % 3 = 0 then 3 else N % 3 := by
  obtain ⟨hpag, hlen⟩ :=
    paginate_spec (ws.filter (fun w => w.user_id == u.id)) p N hN h0 hp1 hp2
  exact ⟨_, by simp only [user_workouts, hu, hpag], hlen⟩

/-- Witness for C5, the spec scenario: user A owns 4 workouts, page 1
holds 3 of them and page 2 holds exactly 1, out of 2 total pages. -/
theorem C5_witness :
    (∃ items, user_workouts uA [uA] ws4 1 = .page items 2 ∧ items.length = 3) ∧
    (∃ items, user_workouts uA [uA] ws4 2 = .page items 2 ∧ items.length = 1) := by
  constructor
  · have h := C5_pagination uA [uA] ws4 uA 4 1
      (by decide) (by decide) (by decide) (by decide) (by decide)
    simpa using h
  · have h := C5_pagination uA [uA] ws4 uA 4 2
      (by decide) (by decide) (by decide) (by decide) (by decide)
    simpa using h

/-- C6: creating a fresh id and then fetching it returns a record with
exactly the id, task and summary that were supplied. -/
theorem C6_create_then_fetch (store : ToDoStore) (i : Int) (t s : String)
    (h : queryGet store i = none) :
    todo_get (todo_post store i (some t) (some s)).2 i = .ok ⟨i, t, s⟩ := by
  have hpost : (todo_post store i (some t) (some s)).2
      = store ++ [⟨i, t, s⟩] := by
    simp [todo_post, h]
  have hq : queryGet (store ++ [(⟨i, t, s⟩ : ToDoRecord)]) i = some ⟨i, t, s⟩ := by
    rw [queryGet, List.find?_append]
    rw [queryGet] at h
    rw [h]
    simp
  simp [todo_get, hpost, hq]

/-- Witness for C6 on the empty table. -/
theorem C6_witness :
    todo_get (todo_post [] 1 (some "write") (some "write code")).2 1
      = .ok ⟨1, "write", "write code"⟩ :=
  C6_create_then_fetch [] 1 "write" "write code" rfl

/-- C7: Delete on a missing id fails with NotFound and changes nothing;
on a stored id (under the primary-key invariant) it answers with the
empty 204 response and a subsequent Fetch of the same id fails with
NotFound. -/
theorem C7_delete_then_fetch (store : ToDoStore) (i : Int)
    (hnd : (store.map (fun r => r.id)).Nodup) :
    (queryGet store i = none → todo_delete store i = (.notFound, store)) ∧
    ((queryGet store i).isSome = true →
      (todo_delete store i).1 = .noContent ∧
      todo_get (todo_delete store i).2 i = .notFound) := by
  constructor
  · intro h
    simp [todo_delete, h]
  · intro h
    obtain ⟨r, hr⟩ := Option.isSome_iff_exists.mp h
    have hdel : todo_delete store i
        = (.noContent, store.eraseP (fun x => x.id == i)) := by
      simp [todo_delete, queryGet] at hr ⊢
      simp [hr]
    rw [hdel]
    refine ⟨rfl, ?_⟩
    have hnone : (store.eraseP (fun x => x.id == i)).find? (fun x => x.id == i)
        = none :=
      find?_eraseP_of_nodup_keys (fun x => x.id) store i hnd
    simp [todo_get, queryGet, hnone]

/-- Witness for C7: deleting id 1 from the sample table gives the empty
204 response and fetching id 1 afterwards is a 404. -/
theorem C7_witness :
    (sampleStore.map (fun r => r.id)).Nodup ∧
    (todo_delete sampleStore 1).1 = .noContent ∧
    todo_get (todo_delete sampleStore 1).2 1 = .notFound :=
  ⟨by decide, (C7_delete_then_fetch sampleStore 1 (by decide)).2 (by decide)⟩

/-- C8: the /all listing re-resolves the session user's User row by email
and fails with NotFound when it is missing; every workout on a returned
page is owned by the resolved user, and a page never holds more than the
fixed page size of 3. -/
theorem C8_owner_scoped (cu : User) (users : List User) (ws : List Workout)
    (p : Nat) :
    (users.find? (fun x => x.email == cu.email) = none →
      user_workouts cu users ws p = .notFound) ∧
    (∀ u items pages, users.find? (fun x => x.email == cu.email) = some u →
      user_workouts cu users ws p = .page items pages →
      (∀ w ∈ items, w.user_id = u.id) ∧ items.length ≤ 3) := by
  constructor
  · intro h
    simp [user_workouts, h]
  · intro u items pages hu hres
    simp only [user_workouts, hu] at hres
    cases hpag : paginate (ws.filter (fun w => w.user_id == u.id)) p 3 with
    | none => rw [hpag] at hres; simp at hres
    | some x =>
      obtain ⟨its, pgs⟩ := x
      rw [hpag] at hres
      simp only [WorkoutsPage.page.injEq] at hres
      obtain ⟨hits, hpgs⟩ := hres
      subst hits
      have hsub : its = ((ws.filter (fun x => x.user_id == u.id)).drop
          ((p - 1) * 3)).take 3 :=
        paginate_items _ p 3 _ hpag
      constructor
      · intro w hw
        rw [hsub] at hw
        have hw2 : w ∈ ws.filter (fun x => x.user_id == u.id) :=
          List.drop_subset _ _ (List.take_subset _ _ hw)
        simpa using (List.mem_filter.mp hw2).2
      · rw [hsub]
        exact List.length_take_le _ _

/-- Witness for C8: page 2 of user A's listing holds only workouts owned
by user A and no more than 3 of them. -/
theorem C8_witness :
    (∀ w ∈ [(⟨4, 40, 3, none, 1⟩ : Workout)], w.user_id = uA.id) ∧
    [(⟨4, 40, 3, none, 1⟩ : Workout)].length ≤ 3 :=
  (C8_owner_scoped uA [uA] ws4 2).2 uA [⟨4, 40, 3, none, 1⟩] 2
    (by decide) (by decide)

/-- C9: the required-field validation of the Create parser runs before
the duplicate-id lookup, so a request missing task or summary always gets
the validation error, never the Conflict error, and the table is left
untouched, whether or not the id is stored. -/
theorem C9_validation_first (store : ToDoStore) (i : Int)
    (task summary : Option String) (h : task = none ∨ summary = none) :
    todo_post store i task summary = (.validationError, store) := by
  cases task with
  | none => rfl
  | some t =>
    cases summary with
    | none => rfl
    | some s =>
      rcases h with h | h <;> simp at h

/-- Witness for C9: posting to the already-stored id 1 without a task
yields the validation error, not Conflict, and the table is unchanged. -/
theorem C9_witness :
    ((none : Option String) = none ∨ (some "y" : Option String) = none) ∧
    todo_post sampleStore 1 none (some "y") = (.validationError, sampleStore) :=
  ⟨Or.inl rfl, C9_validation_first sampleStore 1 none (some "y") (Or.inl rfl)⟩

/-- C10: an Update that supplies a field as the empty string behaves
exactly like an Update that omits the field, for both fields, on every
table: the truthiness test skips the assignment. -/
theorem C10_empty_string_ignored (store : ToDoStore) (i : Int)
    (other : Option String) :
    todo_put store i (some "") other = todo_put store i none other ∧
    todo_put store i other (some "") = todo_put store i other none := by
  have happ : ∀ c : String, applyField c (some "") = applyField c none := by
    intro c
    simp [applyField]
  constructor
  · cases hq : queryGet store i with
    | none => simp [todo_put, hq]
    | some r => simp only [todo_put, hq, happ]
  · cases hq : queryGet store i with
    | none => simp [todo_put, hq]
    | some r => simp only [todo_put, hq, happ]

end DevOpsTest
